import Mathlib

/-!
Shallow embedding of the resume-to-job matching backend
(`rag_engine/gemini_matcher.py`, `rag_engine/job_fetcher.py`,
`rag_engine/resume_parser.py`) and proofs about the specified behaviour.

Conventions used throughout:
* Python dictionaries with a fixed field layout are modelled as Lean
  structures; `dict.get(k, default)` on an absent key is modelled by the
  structure field holding the default.
* Python sets of strings are modelled as `Finset String`; Python
  materialises a set into a list in an unspecified (hash-dependent) order,
  so everything the code produces from a set is modelled at set level.
* A `try`/`except` block is modelled by `Option`/`Except` values: `none`
  (resp. `.error`) marks the exceptional outcome.
* Outbound network and AI calls are modelled by oracle values passed as
  explicit arguments: the embedding is parametric in what the outside
  world answers.
-/

namespace JobRec

/-! ## Data model (the normalized job-listing dictionaries of `job_fetcher.py`) -/

/-- The fixed `market_insights` metadata block added by
`RealJobFetcher._format_jobs`. -/
structure MarketInsights where
  job_market : String
  currency : String
  notice_period : String
  visa_required : Bool
  deriving DecidableEq

/-- A normalized job-listing dictionary as produced by the `_parse_*_job`
helpers of `job_fetcher.py`.  `experience_level` and `market_insights` are
`Option`s because those keys only exist after `_format_jobs` has run. -/
structure Job where
  id : String := ""
  title : String := ""
  company : String := ""
  location : String := ""
  salary : String := ""
  description : String := ""
  source : String := ""
  url : String := ""
  posted_date : String := ""
  job_type : String := ""
  remote : Bool := false
  requirements : List String := []
  experience_level : Option String := none
  market_insights : Option MarketInsights := none
  deriving DecidableEq

/-- The resume fields `GeminiMatcher` actually reads (`resume_data.get('skills', [])`
and `resume_data.get('experience_years', 0)`). -/
structure Resume where
  skills : List String := []
  experience_years : Nat := 0
  deriving DecidableEq

/-- Python's `str.lower()` (on the ASCII range, which is all the skill
vocabulary uses). -/
def pyLower (s : String) : String := String.mk (s.data.map Char.toLower)

/-- `set(skill.lower() for skill in resume_data.get('skills', []))`. -/
def resumeSkillSet (r : Resume) : Finset String :=
  (r.skills.map pyLower).toFinset

/-- `set(req.lower() for req in job.get('requirements', []))`. -/
def jobReqSet (j : Job) : Finset String :=
  (j.requirements.map pyLower).toFinset

/-- A job dictionary after `.copy()` and `.update({...})` with the five
scoring fields (`_parse_gemini_response` / `_fallback_matching`).  The
skill lists are Python sets/one-shot JSON lists; modelled as `Finset`. -/
structure MatchResult where
  job : Job
  match_percentage : Int
  matching_skills : Finset String
  missing_skills : Finset String
  explanation : String
  recommendation : String
  deriving DecidableEq

/-! ## The fallback scorer `GeminiMatcher._fallback_matching`

The loop body in the source reads

```
job_requirements = set(req.lower() for req in job.get('requirements', []))
if job_requirements:
    matching_skills = resume_skills.intersection(job_requirements)
    match_percentage = int((len(matching_skills) / len(job_requirements)) * 100)
else:
    match_percentage = 50
job_copy = job.copy()
job_copy.update({... 'matching_skills': list(matching_skills) if 'matching_skills' in locals() else [], ...})
```

Note that `matching_skills` is only assigned on the non-empty branch, but
`'matching_skills' in locals()` stays true for the rest of the loop once
any earlier iteration assigned it; the stale value leaks into later
empty-requirement jobs.  The embedding threads that stale value through
the `prev` argument (`none` = not yet assigned).

`int(x)` truncates toward zero; for the non-negative ratio here that is
the floor, modelled by `Nat` division `(100 * m) / r` (the idealized exact
arithmetic of the Python float expression `int((m / r) * 100)`). -/

/-- One iteration of the `_fallback_matching` loop.  `prev` is the value
the Python local `matching_skills` holds on entry to the iteration. -/
def fallbackStep (rs : Finset String) (prev : Option (Finset String)) (job : Job) :
    MatchResult × Option (Finset String) :=
  let reqs := jobReqSet job
  if reqs = ∅ then
    ({ job := job
       match_percentage := 50
       matching_skills := prev.getD ∅
       missing_skills := reqs \ rs
       explanation := "Basic skill match analysis. " ++ toString (prev.getD ∅).card ++
         " skills match job requirements."
       recommendation := if (50 : Int) > 60 then "Consider applying"
         else "Develop missing skills first" },
     prev)
  else
    let ms := rs ∩ reqs
    let pct : Int := ((100 * ms.card) / reqs.card : Nat)
    ({ job := job
       match_percentage := pct
       matching_skills := ms
       missing_skills := reqs \ rs
       explanation := "Basic skill match analysis. " ++ toString ms.card ++
         " skills match job requirements."
       recommendation := if pct > 60 then "Consider applying"
         else "Develop missing skills first" },
     some ms)

/-- The `for job in jobs` loop of `_fallback_matching`, producing the raw
(unsorted) `matches` list. -/
def fallbackLoop (rs : Finset String) : Option (Finset String) → List Job → List MatchResult
  | _, [] => []
  | prev, j :: js =>
    let step := fallbackStep rs prev j
    step.1 :: fallbackLoop rs step.2 js

/-! ## The common post-step: stable sort by `match_percentage` descending, top 10

Python's `list.sort(key=..., reverse=True)` is a stable sort; a stable
sort for a fixed total preorder has a unique result, so it is modelled by
a stable insertion sort for the descending order on `match_percentage`. -/

/-- Insert `x` into an (already sorted, descending) list, after every
element with a strictly greater key and before every element with a
smaller-or-equal key — so an element that came earlier in the input stays
in front of later elements with an equal key (stability). -/
def insertDesc (x : MatchResult) : List MatchResult → List MatchResult
  | [] => [x]
  | y :: ys =>
    if x.match_percentage < y.match_percentage then y :: insertDesc x ys
    else x :: y :: ys

/-- Stable sort, descending by `match_percentage`. -/
def sortDesc : List MatchResult → List MatchResult
  | [] => []
  | x :: xs => insertDesc x (sortDesc xs)

/-- `matches.sort(key=lambda x: x.get('match_percentage', 0), reverse=True)`
followed by `matches[:10]`. -/
def rankTruncate (l : List MatchResult) : List MatchResult :=
  (sortDesc l).take 10

/-- `GeminiMatcher._fallback_matching`. -/
def fallback_matching (resume : Resume) (jobs : List Job) : List MatchResult :=
  rankTruncate (fallbackLoop (resumeSkillSet resume) none jobs)

/-! ## The AI-response parser `GeminiMatcher._parse_gemini_response` -/

/-- One decoded entry of the AI response's `matches` array, with the
defaults of the `match.get(key, default)` reads already applied.  A JSON
entry whose values have the wrong runtime type makes the Python code raise
inside the `try`, which is covered by the decode-failure case of
`parse_gemini_response` below. -/
structure GMatch where
  job_index : Int := 0
  match_percentage : Int := 0
  matching_skills : Finset String := ∅
  missing_skills : Finset String := ∅
  explanation : String := ""
  recommendation : String := ""
  deriving DecidableEq

/-- Python list indexing `l[i]`: non-negative indices from the front,
negative indices from the back, `none` models the `IndexError`. -/
def pyGet {α : Type} (l : List α) (i : Int) : Option α :=
  let j : Int := if i < 0 then (l.length : Int) + i else i
  if 0 ≤ j then l[j.toNat]? else none

/-- `jobs[job_index].copy()` followed by `.update({...})` with the five
scoring fields of one decoded match. -/
def mergeMatch (job : Job) (m : GMatch) : MatchResult :=
  { job := job
    match_percentage := m.match_percentage
    matching_skills := m.matching_skills
    missing_skills := m.missing_skills
    explanation := m.explanation
    recommendation := m.recommendation }

/-- The `for match in parsed_response.get('matches', [])` loop.  A match
passes the bounds test `job_index < len(jobs)` or is silently skipped; an
`IndexError` from `jobs[job_index]` (only possible for `job_index <
-len(jobs)`) aborts the whole loop — modelled by `none`. -/
def processMatches (jobs : List Job) : List GMatch → Option (List MatchResult)
  | [] => some []
  | m :: rest =>
    if m.job_index < (jobs.length : Int) then
      match pyGet jobs m.job_index with
      | none => none
      | some job => (processMatches jobs rest).map (fun l => mergeMatch job m :: l)
    else
      processMatches jobs rest

/-- The resume dictionary `{"skills": [], "experience_years": 0}` that
`_parse_gemini_response` hands to the fallback on its own failure path. -/
def emptyResume : Resume := { skills := [], experience_years := 0 }

/-- `GeminiMatcher._parse_gemini_response`.  `decoded = none` models every
way the response text fails to yield a usable payload (no braces found,
`json.loads` raising, a non-dict payload, wrongly-typed entries); in all
those cases the source reaches `return self._fallback_matching({"skills": [],
"experience_years": 0}, jobs)`. -/
def parse_gemini_response (decoded : Option (List GMatch)) (jobs : List Job) :
    List MatchResult :=
  match decoded with
  | none => fallback_matching emptyResume jobs
  | some ms =>
    match processMatches jobs ms with
    | none => fallback_matching emptyResume jobs
    | some results => rankTruncate results

/-- `GeminiMatcher.match_resume_to_jobs`.  `aiOutcome = none` models the
AI call (or prompt construction) raising, in which case the source's outer
`except` runs `self._fallback_matching(resume_data, jobs)` on the original
resume; `aiOutcome = some decoded` models a returned response text whose
decoding outcome is `decoded`. -/
def match_resume_to_jobs (aiOutcome : Option (Option (List GMatch)))
    (resume : Resume) (jobs : List Job) : List MatchResult :=
  match aiOutcome with
  | none => fallback_matching resume jobs
  | some decoded => parse_gemini_response decoded jobs

/-! ## Lemmas about the stable sort and the common post-step -/

/-- Sorted non-increasingly by `match_percentage`. -/
def SortedDesc (l : List MatchResult) : Prop :=
  l.Pairwise (fun a b => b.match_percentage ≤ a.match_percentage)

theorem mem_insertDesc {r x : MatchResult} {l : List MatchResult} :
    r ∈ insertDesc x l ↔ r = x ∨ r ∈ l := by
  induction l with
  | nil => simp [insertDesc]
  | cons y ys ih =>
    by_cases h : x.match_percentage < y.match_percentage
    · simp [insertDesc, h, ih]
      tauto
    · simp [insertDesc, h]

theorem sortedDesc_insertDesc {x : MatchResult} {l : List MatchResult}
    (hl : SortedDesc l) : SortedDesc (insertDesc x l) := by
  induction l with
  | nil => simp [insertDesc, SortedDesc]
  | cons y ys ih =>
    rcases List.pairwise_cons.1 hl with ⟨hy, hys⟩
    by_cases h : x.match_percentage < y.match_percentage
    · rw [insertDesc, if_pos h]
      refine List.pairwise_cons.2 ⟨?_, ih hys⟩
      intro z hz
      rcases mem_insertDesc.1 hz with rfl | hz
      · exact le_of_lt h
      · exact hy z hz
    · rw [insertDesc, if_neg h]
      refine List.pairwise_cons.2 ⟨?_, hl⟩
      intro z hz
      rcases List.mem_cons.1 hz with rfl | hz
      · exact le_of_not_lt h
      · exact le_trans (hy z hz) (le_of_not_lt h)

theorem sortedDesc_sortDesc (l : List MatchResult) : SortedDesc (sortDesc l) := by
  induction l with
  | nil => exact List.Pairwise.nil
  | cons x xs ih => exact sortedDesc_insertDesc ih

theorem mem_sortDesc {r : MatchResult} {l : List MatchResult} :
    r ∈ sortDesc l ↔ r ∈ l := by
  induction l with
  | nil => simp [sortDesc]
  | cons x xs ih => simp [sortDesc, mem_insertDesc, ih]

theorem filter_insertDesc (c : Int) (x : MatchResult) (l : List MatchResult) :
    (insertDesc x l).filter (fun r => r.match_percentage == c) =
      if x.match_percentage = c then
        x :: l.filter (fun r => r.match_percentage == c)
      else l.filter (fun r => r.match_percentage == c) := by
  induction l with
  | nil => by_cases hx : x.match_percentage = c <;> simp [insertDesc, hx]
  | cons y ys ih =>
    by_cases h : x.match_percentage < y.match_percentage
    · rw [insertDesc, if_pos h]
      by_cases hx : x.match_percentage = c
      · have hy : ¬ (y.match_percentage = c) := by
          intro hc; rw [hx] at h; rw [hc] at h; exact lt_irrefl _ h
        simp [List.filter_cons, hx, hy, ih]
      · by_cases hy : y.match_percentage = c <;> simp [List.filter_cons, hx, hy, ih]
    · rw [insertDesc, if_neg h]
      by_cases hx : x.match_percentage = c <;>
        by_cases hy : y.match_percentage = c <;>
          simp [List.filter_cons, hx, hy]

theorem filter_sortDesc (c : Int) (l : List MatchResult) :
    (sortDesc l).filter (fun r => r.match_percentage == c) =
      l.filter (fun r => r.match_percentage == c) := by
  induction l with
  | nil => rfl
  | cons x xs ih =>
    rw [sortDesc, filter_insertDesc, ih]
    by_cases hx : x.match_percentage = c <;> simp [List.filter_cons, hx]

theorem filter_take {α : Type} (p : α → Bool) :
    ∀ (n : Nat) (l : List α), ∃ m, (l.take n).filter p = (l.filter p).take m := by
  intro n l
  induction l generalizing n with
  | nil => exact ⟨0, by simp⟩
  | cons x xs ih =>
    cases n with
    | zero => exact ⟨0, by simp⟩
    | succ n =>
      rcases ih n with ⟨m, hm⟩
      by_cases hx : p x
      · exact ⟨m + 1, by simp [List.filter_cons, hx, hm]⟩
      · exact ⟨m, by simp [List.filter_cons, hx, hm]⟩

theorem sortedDesc_rankTruncate (l : List MatchResult) : SortedDesc (rankTruncate l) :=
  (sortedDesc_sortDesc l).sublist (List.take_sublist 10 (sortDesc l))

theorem length_rankTruncate (l : List MatchResult) : (rankTruncate l).length ≤ 10 := by
  simp [rankTruncate]

theorem mem_rankTruncate {r : MatchResult} {l : List MatchResult}
    (h : r ∈ rankTruncate l) : r ∈ l :=
  mem_sortDesc.1 ((List.take_sublist 10 (sortDesc l)).subset h)

/-- Stability of the common post-step: for every percentage value `c`, the
output's entries with that percentage are an initial run, in input order,
of the input's entries with that percentage. -/
theorem stable_rankTruncate (l : List MatchResult) (c : Int) :
    ∃ m, (rankTruncate l).filter (fun r => r.match_percentage == c) =
      (l.filter (fun r => r.match_percentage == c)).take m := by
  rcases filter_take (fun r => r.match_percentage == c) 10 (sortDesc l) with ⟨m, hm⟩
  exact ⟨m, by rw [rankTruncate, hm, filter_sortDesc]⟩

/-! ## Lemmas about the fallback scorer -/

theorem fallbackStep_job (rs : Finset String) (prev : Option (Finset String)) (j : Job) :
    ((fallbackStep rs prev j).1).job = j := by
  rw [fallbackStep]
  by_cases h : jobReqSet j = ∅ <;> simp [h]

theorem fallbackStep_pct (rs : Finset String) (prev : Option (Finset String)) (j : Job) :
    ((fallbackStep rs prev j).1).match_percentage =
      if jobReqSet j = ∅ then 50
      else ((100 * (rs ∩ jobReqSet j).card) / (jobReqSet j).card : Nat) := by
  rw [fallbackStep]
  by_cases h : jobReqSet j = ∅ <;> simp [h]

theorem fallbackStep_missing (rs : Finset String) (prev : Option (Finset String)) (j : Job) :
    ((fallbackStep rs prev j).1).missing_skills = jobReqSet j \ rs := by
  rw [fallbackStep]
  by_cases h : jobReqSet j = ∅ <;> simp [h]

/-- Every entry of the raw fallback list is the first component of some
`fallbackStep`, applied to a job of the input list. -/
theorem mem_fallbackLoop {rs : Finset String} {r : MatchResult} :
    ∀ {prev : Option (Finset String)} {jobs : List Job},
      r ∈ fallbackLoop rs prev jobs →
      ∃ (p : Option (Finset String)) (j : Job), j ∈ jobs ∧ r = (fallbackStep rs p j).1 := by
  intro prev jobs
  induction jobs generalizing prev with
  | nil => intro h; cases h
  | cons j js ih =>
    intro h
    rcases List.mem_cons.1 h with h | h
    · exact ⟨prev, j, List.mem_cons_self j js, h⟩
    · rcases ih h with ⟨p, j', hj', hr⟩
      exact ⟨p, j', List.mem_cons_of_mem j hj', hr⟩

/-- The requirement set is empty exactly when the requirement list is. -/
theorem jobReqSet_eq_empty_iff (j : Job) : jobReqSet j = ∅ ↔ j.requirements = [] := by
  rw [jobReqSet, List.toFinset_eq_empty_iff, List.map_eq_nil_iff]

/-! ## Lemmas about the AI-parse path -/

/-- Every percentage in a successfully processed AI match list is copied,
unvalidated, from some decoded match. -/
theorem processMatches_pct {jobs : List Job} :
    ∀ {ms : List GMatch} {results : List MatchResult},
      processMatches jobs ms = some results →
      ∀ r ∈ results, ∃ m ∈ ms, r.match_percentage = m.match_percentage := by
  intro ms
  induction ms with
  | nil =>
    intro results h r hr
    rw [processMatches] at h
    cases h
    cases hr
  | cons m rest ih =>
    intro results h r hr
    rw [processMatches] at h
    by_cases hb : m.job_index < (jobs.length : Int)
    · rw [if_pos hb] at h
      cases hg : pyGet jobs m.job_index with
      | none => rw [hg] at h; cases h
      | some job =>
        rw [hg] at h
        cases hrest : processMatches jobs rest with
        | none => rw [hrest] at h; cases h
        | some tail =>
          rw [hrest] at h
          cases h
          rcases List.mem_cons.1 hr with rfl | hr
          · exact ⟨m, List.mem_cons_self m rest, rfl⟩
          · rcases ih hrest r hr with ⟨m', hm', hpct⟩
            exact ⟨m', List.mem_cons_of_mem m hm', hpct⟩
    · rw [if_neg hb] at h
      rcases ih h r hr with ⟨m', hm', hpct⟩
      exact ⟨m', List.mem_cons_of_mem m hm', hpct⟩

/-! ## Concrete fixtures used by counterexamples and witnesses -/

def jobPython : Job := { requirements := ["python"] }

def jobNoReqs : Job := { requirements := [] }

def jobABC : Job := { requirements := ["a", "b", "c"] }

def resumePython : Resume := { skills := ["python"] }

def resumeAB : Resume := { skills := ["a", "b"] }

/-- The single entry of `fallback_matching resumePython [jobPython]`. -/
def resultPy : MatchResult :=
  { job := jobPython
    match_percentage := 100
    matching_skills := {"python"}
    missing_skills := ∅
    explanation := "Basic skill match analysis. 1 skills match job requirements."
    recommendation := "Consider applying" }

/-! ## Claim C1 -/

/-- C1 (amended).  The three failure modes behave differently: (a) an
exception in the AI call makes `match_resume_to_jobs` return the fallback
output on the identical resume; (b) a response that cannot be decoded
makes `_parse_gemini_response` return the fallback output computed from
the empty-skills profile `{"skills": [], "experience_years": 0}`, not from
the original resume; (c) a decoded match with an out-of-range non-negative
`job_index` is merely skipped — the remaining AI-scored matches are kept
and no fallback runs. -/
theorem claim_C1 :
    (∀ (resume : Resume) (jobs : List Job),
        match_resume_to_jobs none resume jobs = fallback_matching resume jobs)
    ∧ (∀ jobs : List Job,
        parse_gemini_response none jobs = fallback_matching emptyResume jobs)
    ∧ (∀ (jobs : List Job) (m : GMatch) (rest : List GMatch),
        (jobs.length : Int) ≤ m.job_index →
        processMatches jobs (m :: rest) = processMatches jobs rest) := by
  refine ⟨fun _ _ => rfl, fun _ => rfl, ?_⟩
  intro jobs m rest h
  rw [processMatches, if_neg (not_lt.2 h)]

theorem claim_C1_witness :
    (([jobPython] : List Job).length : Int) ≤ (5 : Int)
    ∧ processMatches [jobPython] [{ job_index := 5 }] = processMatches [jobPython] [] :=
  ⟨by decide, claim_C1.2.2 [jobPython] { job_index := 5 } [] (by decide)⟩

/-- C1 counterexample.  With resume skills `["python"]` and one job
requiring `"python"`: a decode failure yields the empty-profile fallback
(percentage 0), not the fallback on the identical resume (percentage 100);
and a single out-of-range match (`job_index = 5`) yields the empty match
list, not the fallback output. -/
theorem claim_C1_ce :
    match_resume_to_jobs (some none) resumePython [jobPython] ≠
      fallback_matching resumePython [jobPython]
    ∧ parse_gemini_response (some [{ job_index := 5, match_percentage := 90 }]) [jobPython] ≠
      fallback_matching resumePython [jobPython] := by
  constructor <;> decide

/-! ## Claim C2 -/

/-- C2 (amended).  In the fallback scorer, for a job with a non-empty
requirement list the match percentage is the *truncation* (floor)
`(100 * |intersection|) / |requirements|` — Python's `int(...)`, not
`round(...)` — and for an empty requirement list it is exactly 50. -/
theorem claim_C2 :
    ∀ (resume : Resume) (jobs : List Job) (r : MatchResult),
      r ∈ fallback_matching resume jobs →
      (r.job.requirements ≠ [] →
        r.match_percentage =
          ((100 * ((resumeSkillSet resume) ∩ jobReqSet r.job).card) / (jobReqSet r.job).card : Nat))
      ∧ (r.job.requirements = [] → r.match_percentage = 50) := by
  intro resume jobs r hr
  rcases mem_fallbackLoop (mem_rankTruncate hr) with ⟨p, j, _, rfl⟩
  rw [fallbackStep_job, fallbackStep_pct]
  constructor
  · intro hne
    rw [if_neg (fun he => hne ((jobReqSet_eq_empty_iff j).1 he))]
  · intro he
    rw [if_pos ((jobReqSet_eq_empty_iff j).2 he)]
    norm_num

theorem claim_C2_witness :
    resultPy ∈ fallback_matching resumePython [jobPython]
    ∧ resultPy.job.requirements ≠ []
    ∧ resultPy.match_percentage =
        ((100 * ((resumeSkillSet resumePython) ∩ jobReqSet resultPy.job).card) /
          (jobReqSet resultPy.job).card : Nat) :=
  ⟨by decide, by decide,
    (claim_C2 resumePython [jobPython] resultPy (by decide)).1 (by decide)⟩

/-- C2 counterexample.  Resume skills `{"a","b"}`, job requirements
`{"a","b","c"}`: the code produces `int((2/3)*100) = 66`, while the claim
demands `round(100 * 2/3) = 67`. -/
theorem claim_C2_ce :
    (fallback_matching resumeAB [jobABC]).map (fun r => r.match_percentage) = [66]
    ∧ ((resumeSkillSet resumeAB) ∩ jobReqSet jobABC).card = 2
    ∧ (jobReqSet jobABC).card = 3
    ∧ round ((100 * (2 : ℚ)) / 3) = 67 := by
  refine ⟨by decide, by decide, by decide, by norm_num [round_eq]⟩

/-! ## Claim C3 -/

/-- Every output of the Match Ranker is a sorted-truncation of some
produced match list. -/
theorem exists_rankTruncate (ai : Option (Option (List GMatch)))
    (resume : Resume) (jobs : List Job) :
    ∃ l, match_resume_to_jobs ai resume jobs = rankTruncate l := by
  cases ai with
  | none => exact ⟨fallbackLoop (resumeSkillSet resume) none jobs, rfl⟩
  | some decoded =>
    cases decoded with
    | none => exact ⟨fallbackLoop (resumeSkillSet emptyResume) none jobs, rfl⟩
    | some ms =>
      cases h : processMatches jobs ms with
      | none =>
        refine ⟨fallbackLoop (resumeSkillSet emptyResume) none jobs, ?_⟩
        rw [match_resume_to_jobs, parse_gemini_response, h]
        rfl
      | some results =>
        refine ⟨results, ?_⟩
        rw [match_resume_to_jobs, parse_gemini_response, h]

/-- C3 (confirmed).  The common post-step sorts non-increasingly by
`match_percentage`, keeps at most 10 entries, and is stable (for each
percentage value, the output entries with that value are an initial run,
in input order, of the produced entries with that value); both the
fallback path and the successful AI-parse path feed their produced
matches through it, so every Match Ranker output is sorted non-increasing
with length at most 10. -/
theorem claim_C3 :
    (∀ l : List MatchResult,
        SortedDesc (rankTruncate l) ∧ (rankTruncate l).length ≤ 10 ∧
        ∀ c : Int, ∃ m, (rankTruncate l).filter (fun r => r.match_percentage == c) =
          (l.filter (fun r => r.match_percentage == c)).take m)
    ∧ (∀ (resume : Resume) (jobs : List Job),
        fallback_matching resume jobs =
          rankTruncate (fallbackLoop (resumeSkillSet resume) none jobs))
    ∧ (∀ (jobs : List Job) (ms : List GMatch) (results : List MatchResult),
        processMatches jobs ms = some results →
        parse_gemini_response (some ms) jobs = rankTruncate results)
    ∧ (∀ (ai : Option (Option (List GMatch))) (resume : Resume) (jobs : List Job),
        SortedDesc (match_resume_to_jobs ai resume jobs) ∧
        (match_resume_to_jobs ai resume jobs).length ≤ 10) := by
  refine ⟨fun l => ⟨sortedDesc_rankTruncate l, length_rankTruncate l, stable_rankTruncate l⟩,
    fun _ _ => rfl, ?_, ?_⟩
  · intro jobs ms results h
    rw [parse_gemini_response, h]
  · intro ai resume jobs
    rcases exists_rankTruncate ai resume jobs with ⟨l, hl⟩
    rw [hl]
    exact ⟨sortedDesc_rankTruncate l, length_rankTruncate l⟩

theorem claim_C3_witness :
    processMatches [jobPython] [{ job_index := 0, match_percentage := 90 }] =
      some [mergeMatch jobPython { job_index := 0, match_percentage := 90 }]
    ∧ parse_gemini_response (some [{ job_index := 0, match_percentage := 90 }]) [jobPython] =
      rankTruncate [mergeMatch jobPython { job_index := 0, match_percentage := 90 }] :=
  ⟨by decide,
    claim_C3.2.2.1 [jobPython] [{ job_index := 0, match_percentage := 90 }]
      [mergeMatch jobPython { job_index := 0, match_percentage := 90 }] (by decide)⟩

/-! ## Claim C4 -/

/-- C4 (code bug).  With resume skills `["python"]` and the job list
`[jobPython, jobNoReqs]` (the second job has an empty requirement list),
the second job's `matching_skills` comes out as `{"python"}` — the stale
Python local from the first iteration — even though its requirement
intersection with the resume skills is empty, contradicting the claim
that `matching_skills` is always the intersection.  (`missing_skills` is
computed from a variable that *is* reassigned every iteration and is
correct.) -/
theorem claim_C4 :
    (fallback_matching resumePython [jobPython, jobNoReqs]).map
        (fun r => (r.job.requirements, r.matching_skills, r.missing_skills)) =
      [(["python"], {"python"}, ∅), ([], {"python"}, ∅)]
    ∧ resumeSkillSet resumePython ∩ jobReqSet jobNoReqs = ∅ := by
  constructor <;> decide

/-! ## Claim C5 -/

/-- C5 (amended).  Every fallback-path result has an integer
`match_percentage` between 0 and 100; but the AI-parse path copies the
decoded `match_percentage` (default 0) into the result without any
validation, so out-of-range AI values propagate unchanged. -/
theorem claim_C5 :
    (∀ (resume : Resume) (jobs : List Job) (r : MatchResult),
        r ∈ fallback_matching resume jobs →
        0 ≤ r.match_percentage ∧ r.match_percentage ≤ 100)
    ∧ (∀ (jobs : List Job) (ms : List GMatch) (results : List MatchResult),
        processMatches jobs ms = some results →
        ∀ r ∈ results, ∃ m ∈ ms, r.match_percentage = m.match_percentage) := by
  refine ⟨?_, fun jobs ms results h => processMatches_pct h⟩
  intro resume jobs r hr
  rcases mem_fallbackLoop (mem_rankTruncate hr) with ⟨p, j, _, rfl⟩
  rw [fallbackStep_pct]
  by_cases he : jobReqSet j = ∅
  · rw [if_pos he]
    norm_num
  · rw [if_neg he]
    have hb : (100 * ((resumeSkillSet resume) ∩ jobReqSet j).card) / (jobReqSet j).card ≤ 100 := by
      have hm : ((resumeSkillSet resume) ∩ jobReqSet j).card ≤ (jobReqSet j).card :=
        Finset.card_le_card
          (@Finset.inter_subset_right String _ (resumeSkillSet resume) (jobReqSet j))
      apply Nat.div_le_of_le_mul
      omega
    constructor
    · exact Int.ofNat_nonneg _
    · exact_mod_cast hb

theorem claim_C5_witness :
    resultPy ∈ fallback_matching resumePython [jobPython]
    ∧ 0 ≤ resultPy.match_percentage ∧ resultPy.match_percentage ≤ 100 :=
  ⟨by decide, (claim_C5.1 resumePython [jobPython] resultPy (by decide)).1,
    (claim_C5.1 resumePython [jobPython] resultPy (by decide)).2⟩

/-- C5 counterexample.  A decoded AI match with `match_percentage = 150`
and in-bounds `job_index` produces a `MatchResult` carrying 150. -/
theorem claim_C5_ce :
    (parse_gemini_response (some [{ job_index := 0, match_percentage := 150 }]) [jobPython]).map
        (fun r => r.match_percentage) = [150]
    ∧ ¬ ((150 : Int) ≤ 100) := by
  constructor <;> decide

/-! ## Claim C10 -/

/-- C10 (amended).  The bounds check `job_index < len(jobs)` never rejects
a negative index.  A negative `job_index` with `-len(jobs) ≤ job_index`
is merged into a copy of the job at position `len(jobs) + job_index`,
i.e. counted from the end of the list; a negative `job_index` below
`-len(jobs)` instead raises `IndexError`, which aborts the parse and
falls back on the empty-skills profile for the whole request. -/
theorem claim_C10 :
    (∀ (jobs : List Job) (m : GMatch) (rest : List GMatch) (j : Job),
        m.job_index < 0 →
        -(jobs.length : Int) ≤ m.job_index →
        jobs[((jobs.length : Int) + m.job_index).toNat]? = some j →
        processMatches jobs (m :: rest) =
          (processMatches jobs rest).map (fun l => mergeMatch j m :: l))
    ∧ (∀ (jobs : List Job) (m : GMatch) (rest : List GMatch),
        (jobs.length : Int) + m.job_index < 0 →
        parse_gemini_response (some (m :: rest)) jobs =
          fallback_matching emptyResume jobs) := by
  constructor
  · intro jobs m rest j hneg hge hj
    have hlt : m.job_index < (jobs.length : Int) := by
      have : (0 : Int) ≤ (jobs.length : Int) := Int.ofNat_nonneg _
      omega
    rw [processMatches, if_pos hlt, pyGet]
    simp only [if_pos hneg, hj, if_pos (by omega : (0 : Int) ≤ (jobs.length : Int) + m.job_index)]
  · intro jobs m rest h
    have hneg : m.job_index < 0 := by
      have : (0 : Int) ≤ (jobs.length : Int) := Int.ofNat_nonneg _
      omega
    have hlt : m.job_index < (jobs.length : Int) := by
      have : (0 : Int) ≤ (jobs.length : Int) := Int.ofNat_nonneg _
      omega
    have hpm : processMatches jobs (m :: rest) = none := by
      rw [processMatches, if_pos hlt, pyGet]
      simp only [if_pos hneg, if_neg (by omega : ¬ (0 : Int) ≤ (jobs.length : Int) + m.job_index)]
    rw [parse_gemini_response, hpm]

theorem claim_C10_witness :
    ({ job_index := -1, match_percentage := 90 } : GMatch).job_index < 0
    ∧ -(([jobPython, jobABC] : List Job).length : Int) ≤ (-1 : Int)
    ∧ processMatches [jobPython, jobABC] [{ job_index := -1, match_percentage := 90 }] =
        some [mergeMatch jobABC { job_index := -1, match_percentage := 90 }] := by
  refine ⟨by decide, by decide, ?_⟩
  rw [claim_C10.1 [jobPython, jobABC] { job_index := -1, match_percentage := 90 } [] jobABC
    (by decide) (by decide) (by decide)]
  rfl

/-- C10 counterexample.  With one job and a decoded match whose
`job_index` is `-2`, there is no "position counted from the end": the
code raises `IndexError` and the whole request falls back (the lone
output percentage is the fallback's 0, not the decoded 90). -/
theorem claim_C10_ce :
    parse_gemini_response (some [{ job_index := -2, match_percentage := 90 }]) [jobPython] =
      fallback_matching emptyResume [jobPython]
    ∧ (parse_gemini_response (some [{ job_index := -2, match_percentage := 90 }]) [jobPython]).map
        (fun r => r.match_percentage) = [0] := by
  constructor <;> decide

/-! ## Heap-level model of the Match Ranker (for the frame property C9)

The functional model above treats dicts as values, which cannot express
mutation.  To settle the frame claim the same code paths are re-traced at
the granularity of Python dict *objects*: a heap is a list of dict
objects, the job listings are passed as addresses into it, `job.copy()`
followed by `.update({...})` allocates a fresh object at the end of the
heap, and nothing ever writes to an existing address. -/

/-- A job-listing dict object: `plain` before, `scored` after the update
with the five scoring fields. -/
inductive Cell where
  | plain (j : Job)
  | scored (m : MatchResult)
  deriving DecidableEq

/-- The job-listing fields of a dict (present in both shapes). -/
def Cell.jobOf : Cell → Job
  | .plain j => j
  | .scored m => m.job

/-- `x.get('match_percentage', 0)` read from a dict object. -/
def Cell.pct : Cell → Int
  | .plain _ => 0
  | .scored m => m.match_percentage

/-- Heaps grow only by allocation at the end; addresses are indices. -/
abbrev Heap := List Cell

/-- Dereference an address. -/
def readCell (h : Heap) (a : Nat) : Cell := h.getD a (Cell.plain {})

/-- `_fallback_matching`'s loop over job addresses: reads the job dict,
allocates the scored copy, never writes to an existing address. -/
def fallbackLoopH (rs : Finset String) : Heap → Option (Finset String) → List Nat →
    Heap × List Nat
  | h, _, [] => (h, [])
  | h, prev, a :: rest =>
    ((fallbackLoopH rs (h ++ [Cell.scored (fallbackStep rs prev (readCell h a).jobOf).1])
        (fallbackStep rs prev (readCell h a).jobOf).2 rest).1,
     h.length ::
       (fallbackLoopH rs (h ++ [Cell.scored (fallbackStep rs prev (readCell h a).jobOf).1])
         (fallbackStep rs prev (readCell h a).jobOf).2 rest).2)

/-- `insertDesc`, with the sort key read through the heap. -/
def insertDescH (h : Heap) (x : Nat) : List Nat → List Nat
  | [] => [x]
  | y :: ys =>
    if (readCell h x).pct < (readCell h y).pct then y :: insertDescH h x ys
    else x :: y :: ys

/-- `sortDesc`, with the sort key read through the heap (the Python sort
permutes the list of dict references and writes no dict). -/
def sortDescH (h : Heap) : List Nat → List Nat
  | [] => []
  | x :: xs => insertDescH h x (sortDescH h xs)

def rankTruncateH (h : Heap) (l : List Nat) : List Nat := (sortDescH h l).take 10

/-- Heap-level `_fallback_matching`. -/
def fallback_matchingH (resume : Resume) (h : Heap) (jobAddrs : List Nat) :
    Heap × List Nat :=
  ((fallbackLoopH (resumeSkillSet resume) h none jobAddrs).1,
   rankTruncateH (fallbackLoopH (resumeSkillSet resume) h none jobAddrs).1
     (fallbackLoopH (resumeSkillSet resume) h none jobAddrs).2)

/-- Heap-level match loop of `_parse_gemini_response`:
`jobs[job_index].copy()` + `.update({...})` is an allocation. -/
def processMatchesH (jobAddrs : List Nat) : Heap → List GMatch → Option (Heap × List Nat)
  | h, [] => some (h, [])
  | h, m :: rest =>
    if m.job_index < (jobAddrs.length : Int) then
      match pyGet jobAddrs m.job_index with
      | none => none
      | some a =>
        (processMatchesH jobAddrs (h ++ [Cell.scored (mergeMatch (readCell h a).jobOf m)])
            rest).map (fun out => (out.1, h.length :: out.2))
    else processMatchesH jobAddrs h rest

/-- Heap-level `_parse_gemini_response`. -/
def parse_gemini_responseH (decoded : Option (List GMatch)) (h : Heap)
    (jobAddrs : List Nat) : Heap × List Nat :=
  match decoded with
  | none => fallback_matchingH emptyResume h jobAddrs
  | some ms =>
    match processMatchesH jobAddrs h ms with
    | none => fallback_matchingH emptyResume h jobAddrs
    | some out => (out.1, rankTruncateH out.1 out.2)

/-- Heap-level `match_resume_to_jobs`. -/
def match_resume_to_jobsH (ai : Option (Option (List GMatch))) (resume : Resume)
    (h : Heap) (jobAddrs : List Nat) : Heap × List Nat :=
  match ai with
  | none => fallback_matchingH resume h jobAddrs
  | some decoded => parse_gemini_responseH decoded h jobAddrs

theorem fallbackLoopH_ext (rs : Finset String) :
    ∀ (addrs : List Nat) (h : Heap) (prev : Option (Finset String)),
      ∃ ext, (fallbackLoopH rs h prev addrs).1 = h ++ ext := by
  intro addrs
  induction addrs with
  | nil => exact fun h prev => ⟨[], (List.append_nil h).symm⟩
  | cons a rest ih =>
    intro h prev
    rw [fallbackLoopH]
    rcases ih (h ++ [Cell.scored (fallbackStep rs prev (readCell h a).jobOf).1])
      (fallbackStep rs prev (readCell h a).jobOf).2 with ⟨ext, hext⟩
    exact ⟨[Cell.scored (fallbackStep rs prev (readCell h a).jobOf).1] ++ ext, by
      rw [hext, List.append_assoc]⟩

theorem processMatchesH_ext (jobAddrs : List Nat) :
    ∀ (ms : List GMatch) (h : Heap) (out : Heap × List Nat),
      processMatchesH jobAddrs h ms = some out → ∃ ext, out.1 = h ++ ext := by
  intro ms
  induction ms with
  | nil =>
    intro h out hout
    rw [processMatchesH] at hout
    cases hout
    exact ⟨[], (List.append_nil h).symm⟩
  | cons m rest ih =>
    intro h out hout
    rw [processMatchesH] at hout
    by_cases hb : m.job_index < (jobAddrs.length : Int)
    · rw [if_pos hb] at hout
      cases hg : pyGet jobAddrs m.job_index with
      | none => simp only [hg] at hout; cases hout
      | some a =>
        simp only [hg] at hout
        cases hrec : processMatchesH jobAddrs
            (h ++ [Cell.scored (mergeMatch (readCell h a).jobOf m)]) rest with
        | none => rw [hrec] at hout; cases hout
        | some out' =>
          rw [hrec] at hout
          cases hout
          rcases ih (h ++ [Cell.scored (mergeMatch (readCell h a).jobOf m)])
            out' hrec with ⟨ext, hext⟩
          exact ⟨[Cell.scored (mergeMatch (readCell h a).jobOf m)] ++ ext, by
            rw [hext, List.append_assoc]⟩
    · rw [if_neg hb] at hout
      rcases ih h out hout with ⟨ext, hext⟩
      exact ⟨ext, hext⟩

theorem match_resume_to_jobsH_ext (ai : Option (Option (List GMatch))) (resume : Resume)
    (h : Heap) (jobAddrs : List Nat) :
    ∃ ext, (match_resume_to_jobsH ai resume h jobAddrs).1 = h ++ ext := by
  cases ai with
  | none => exact fallbackLoopH_ext (resumeSkillSet resume) jobAddrs h none
  | some decoded =>
    cases decoded with
    | none => exact fallbackLoopH_ext (resumeSkillSet emptyResume) jobAddrs h none
    | some ms =>
      cases hrec : processMatchesH jobAddrs h ms with
      | none =>
        have heq : match_resume_to_jobsH (some (some ms)) resume h jobAddrs =
            fallback_matchingH emptyResume h jobAddrs := by
          rw [match_resume_to_jobsH, parse_gemini_responseH, hrec]
        rw [heq]
        exact fallbackLoopH_ext (resumeSkillSet emptyResume) jobAddrs h none
      | some out =>
        have heq : match_resume_to_jobsH (some (some ms)) resume h jobAddrs =
            (out.1, rankTruncateH out.1 out.2) := by
          rw [match_resume_to_jobsH, parse_gemini_responseH, hrec]
        rw [heq]
        exact processMatchesH_ext jobAddrs ms h out hrec

/-! ## Claim C9 -/

/-- C9 (confirmed).  On every path of the Match Ranker (AI parse, decode
failure and fallback alike), scoring fields are merged into freshly
allocated copies: every dict object that existed before the call reads
back unchanged afterwards — the input job listings are never mutated. -/
theorem claim_C9 :
    ∀ (ai : Option (Option (List GMatch))) (resume : Resume) (h : Heap)
      (jobAddrs : List Nat) (a : Nat), a < h.length →
      ((match_resume_to_jobsH ai resume h jobAddrs).1)[a]? = h[a]? := by
  intro ai resume h jobAddrs a ha
  rcases match_resume_to_jobsH_ext ai resume h jobAddrs with ⟨ext, hext⟩
  rw [hext]
  exact List.getElem?_append_left ha

theorem claim_C9_witness :
    0 < ([Cell.plain jobPython] : Heap).length
    ∧ ((match_resume_to_jobsH (some (some [{ job_index := 0, match_percentage := 90 }]))
        resumePython [Cell.plain jobPython] [0]).1)[0]? =
      ([Cell.plain jobPython] : Heap)[0]? :=
  ⟨by decide,
    claim_C9 (some (some [{ job_index := 0, match_percentage := 90 }])) resumePython
      [Cell.plain jobPython] [0] 0 (by decide)⟩

/-! ## The Job Aggregator `RealJobFetcher` (`job_fetcher.py`) -/

/-- `needle.isPrefixOf hay`, or `needle` occurs somewhere in the tail. -/
def containsSub : List Char → List Char → Bool
  | [], needle => needle.isEmpty
  | hay :: tl, needle => needle.isPrefixOf (hay :: tl) || containsSub tl needle

/-- Python's substring test `needle in haystack`. -/
def strContains (haystack needle : String) : Bool :=
  containsSub haystack.data needle.data

/-- Python truthiness of an optional string configuration value
(`os.getenv` returns `None` when unset; `None` and `""` are both falsy). -/
def truthy (o : Option String) : Bool := !(o.getD "" == "")

/-- `RealJobFetcher.skill_to_job_mapping`. -/
def skill_to_job_mapping : List (String × List String) :=
  [("python", ["Python Developer", "Backend Developer", "Data Scientist"]),
   ("java", ["Java Developer", "Backend Developer", "Full Stack Developer"]),
   ("javascript", ["Frontend Developer", "Full Stack Developer", "Web Developer"]),
   ("react", ["React Developer", "Frontend Developer", "UI Developer"]),
   ("node.js", ["Node.js Developer", "Backend Developer", "Full Stack Developer"]),
   ("data science", ["Data Scientist", "Data Analyst", "ML Engineer"]),
   ("machine learning", ["ML Engineer", "Data Scientist", "AI Engineer"]),
   ("devops", ["DevOps Engineer", "Cloud Engineer", "SRE"]),
   ("aws", ["Cloud Engineer", "DevOps Engineer", "Solutions Architect"])]

/-- Insertion into an ascending list of strings. -/
def insertStrLe (x : String) : List String → List String
  | [] => [x]
  | y :: ys => if x ≤ y then x :: y :: ys else y :: insertStrLe x ys

/-- Ascending insertion sort on strings (used only to pick a canonical
order for a Python set, see `get_relevant_job_titles`). -/
def sortStrings : List String → List String
  | [] => []
  | x :: xs => insertStrLe x (sortStrings xs)

/-- `_get_relevant_job_titles`.  The source collects titles in a Python
`set` and returns `list(job_titles)[:3]`; set iteration order is
hash-dependent and unspecified, so the model fixes the lexicographically
sorted order.  The titles are only ever handed to the provider oracles,
so no claim depends on this choice. -/
def get_relevant_job_titles (skills : List String) : List String :=
  let base : List String :=
    skills.foldl (fun acc skill =>
      skill_to_job_mapping.foldl (fun acc2 kv =>
        if strContains (pyLower skill) kv.1 || strContains kv.1 (pyLower skill)
        then kv.2.foldl (fun l t => if l.contains t then l else l ++ [t]) acc2
        else acc2) acc) []
  let titles : List String :=
    if base = [] then ["Software Developer", "Software Engineer"] else base
  (sortStrings titles).take 3

/-- Configuration and network oracle for the Job Aggregator.  The
credential fields mirror `os.getenv` results (`none` = unset).  Each
`*Resp` field abstracts the HTTP request + JSON decoding + `_parse_*_job`
pipeline of one provider call, yielding the normalized jobs that call
contributes; the source catches every exception, non-200 status and
unparseable record locally and turns it into zero contributed jobs, which
the oracle expresses by just returning fewer (or no) jobs. -/
structure FetchEnv where
  serpapi_key : Option String := none
  adzuna_app_id : Option String := none
  adzuna_app_key : Option String := none
  rapidapi_key : Option String := none
  googleResp : String → Nat → List Job := fun _ _ => []
  adzunaResp : String → Nat → List Job := fun _ _ => []
  jsearchResp : String → List Job := fun _ => []
  arbeitnowResp : Option (List Job) := none

/-- `_fetch_google_jobs`: skipped without a SerpApi key; otherwise one
call per title with `num = min(limit // len(job_titles), 10)`. -/
def fetch_google_jobs (env : FetchEnv) (job_titles : List String) (limit : Nat) : List Job :=
  if truthy env.serpapi_key then
    job_titles.flatMap (fun t => env.googleResp t (min (limit / job_titles.length) 10))
  else []

/-- `_fetch_adzuna_jobs`: skipped unless both Adzuna credentials are set;
otherwise one call per title with
`results_per_page = min(limit // len(job_titles), 10)`. -/
def fetch_adzuna_jobs (env : FetchEnv) (job_titles : List String) (limit : Nat) : List Job :=
  if truthy env.adzuna_app_id && truthy env.adzuna_app_key then
    job_titles.flatMap (fun t => env.adzunaResp t (min (limit / job_titles.length) 10))
  else []

/-- `_fetch_jsearch_jobs`: skipped without a RapidAPI key; otherwise one
call per title, client-side truncated to `limit // len(job_titles)`. -/
def fetch_jsearch_jobs (env : FetchEnv) (job_titles : List String) (limit : Nat) : List Job :=
  if truthy env.rapidapi_key then
    job_titles.flatMap (fun t => (env.jsearchResp t).take (limit / job_titles.length))
  else []

/-- `_fetch_arbeitnow_jobs`: the free job board — *no* credential gate;
one call, truncated to `limit`; `none` models a failed call or a payload
without `data` (both yield `[]`). -/
def fetch_arbeitnow_jobs (env : FetchEnv) (_job_titles : List String) (limit : Nat) :
    List Job :=
  match env.arbeitnowResp with
  | none => []
  | some data => data.take limit

/-- The fixed `market_insights` block of `_format_jobs`. -/
def market_insights_block : MarketInsights :=
  { job_market := "India"
    currency := "INR"
    notice_period := "30-60 days typical"
    visa_required := false }

/-- `_determine_experience_level`. -/
def determine_experience_level (description : String) : String :=
  if ["fresher", "entry level", "0-1 year"].any
      (fun w => strContains (pyLower description) w) then "Fresher"
  else if ["senior", "lead", "5+ years"].any
      (fun w => strContains (pyLower description) w) then "Senior"
  else "Mid-level"

/-- `_format_jobs`: add `experience_level` and the fixed
`market_insights` block to every job. -/
def format_jobs (jobs : List Job) : List Job :=
  jobs.map (fun j =>
    { j with
      experience_level := some (determine_experience_level j.description)
      market_insights := some market_insights_block })

/-- The provider loop of `fetch_jobs`: before each provider, stop if the
running total has reached the limit; otherwise append what the provider
contributes for the remaining budget.  Every exception a provider could
raise is caught in the source (`except ... continue`), so the loop is
total. -/
def fetchLoop : List (List String → Nat → List Job) → List String → Nat → List Job →
    List Job
  | [], _, _, acc => acc
  | f :: fs, titles, limit, acc =>
    if limit ≤ acc.length then acc
    else fetchLoop fs titles limit (acc ++ f titles (limit - acc.length))

/-- `RealJobFetcher.fetch_jobs`: providers in fixed priority order, then
`_format_jobs`, then truncation to `limit`. -/
def fetch_jobs (env : FetchEnv) (limit : Nat) (resume_skills : List String) : List Job :=
  (format_jobs (fetchLoop
    [fetch_google_jobs env, fetch_adzuna_jobs env, fetch_jsearch_jobs env,
      fetch_arbeitnow_jobs env]
    (get_relevant_job_titles resume_skills) limit [])).take limit

/-! ## Claim C6 -/

theorem truthy_eq_false {o : Option String} (h : o.getD "" = "") : truthy o = false := by
  rw [truthy, h]
  rfl

/-- C6 (amended).  With no provider credentials configured the three
keyed providers (SerpApi, Adzuna, RapidAPI/JSearch) are skipped, but the
free ArbeitsNow provider has no credential gate and still runs: for a
positive target the result is exactly the formatted, truncated ArbeitsNow
contribution (and so is empty only when that call fails or returns no
jobs); for target 0 the loop stops before any provider runs.  No path
raises: every provider exception is caught inside `fetch_jobs`. -/
theorem claim_C6 :
    (∀ (env : FetchEnv) (limit : Nat) (resume_skills : List String),
      0 < limit →
      env.serpapi_key.getD "" = "" →
      env.adzuna_app_id.getD "" = "" →
      env.rapidapi_key.getD "" = "" →
      fetch_jobs env limit resume_skills =
        (format_jobs (fetch_arbeitnow_jobs env (get_relevant_job_titles resume_skills)
          limit)).take limit)
    ∧ (∀ (env : FetchEnv) (resume_skills : List String),
        fetch_jobs env 0 resume_skills = []) := by
  constructor
  · intro env limit resume_skills hpos hserp hadz hrapid
    have hn : ¬ limit ≤ ([] : List Job).length := by simp; omega
    rw [fetch_jobs, fetchLoop, if_neg hn]
    rw [fetch_google_jobs, truthy_eq_false hserp]
    simp only [Bool.false_eq_true, if_false, List.append_nil]
    rw [fetchLoop, if_neg hn]
    rw [fetch_adzuna_jobs, truthy_eq_false hadz]
    simp only [Bool.false_and, Bool.false_eq_true, if_false, List.append_nil]
    rw [fetchLoop, if_neg hn]
    rw [fetch_jsearch_jobs, truthy_eq_false hrapid]
    simp only [Bool.false_eq_true, if_false, List.append_nil]
    rw [fetchLoop, if_neg hn]
    rw [fetchLoop]
    simp
  · intro env resume_skills
    rw [fetch_jobs, fetchLoop]
    simp [format_jobs]

/-- An ArbeitsNow job used by the C6 counterexample. -/
def jobArb : Job :=
  { id := "arbeitnow_lean-dev"
    title := "Lean Developer"
    company := "FormalCo"
    description := "senior role proving theorems"
    requirements := [] }

/-- An environment with zero credentials configured but a reachable
ArbeitsNow job board. -/
def envNoCreds : FetchEnv := { arbeitnowResp := some [jobArb] }

theorem claim_C6_witness :
    (0 < 50 ∧ envNoCreds.serpapi_key.getD "" = "" ∧ envNoCreds.adzuna_app_id.getD "" = ""
      ∧ envNoCreds.rapidapi_key.getD "" = "")
    ∧ fetch_jobs envNoCreds 50 [] =
        (format_jobs (fetch_arbeitnow_jobs envNoCreds (get_relevant_job_titles []) 50)).take 50 :=
  ⟨⟨by decide, rfl, rfl, rfl⟩, claim_C6.1 envNoCreds 50 [] (by decide) rfl rfl rfl⟩

/-- C6 counterexample.  All credentials absent, yet the aggregator
returns one (ArbeitsNow) job — not the empty list the claim demands. -/
theorem claim_C6_ce :
    (fetch_jobs envNoCreds 50 []).length = 1
    ∧ fetch_jobs envNoCreds 50 [] ≠ [] := by
  constructor <;> decide

/-! ## The Document Extractor `ResumeParser.extract_text` (`resume_parser.py`) -/

/-- Python's `str.endswith`. -/
def pyEndsWith (s suffix : String) : Bool :=
  suffix.data.reverse.isPrefixOf s.data.reverse

/-- File-system oracle: the outcome of the raw reading work inside
`_extract_from_pdf` / `_extract_from_docx` (`.error msg` is the message
of the exception the underlying library raised). -/
structure ExtractorEnv where
  pdfRead : Except String String := .ok ""
  docxRead : Except String String := .ok ""

/-- `_extract_from_pdf`: wraps any failure as `Error reading PDF: ...`. -/
def extract_from_pdf (env : ExtractorEnv) : Except String String :=
  match env.pdfRead with
  | .ok t => .ok t
  | .error e => .error ("Error reading PDF: " ++ e)

/-- `_extract_from_docx`: wraps any failure as `Error reading DOCX: ...`. -/
def extract_from_docx (env : ExtractorEnv) : Except String String :=
  match env.docxRead with
  | .ok t => .ok t
  | .error e => .error ("Error reading DOCX: " ++ e)

/-- `ResumeParser.extract_text`.  Extension dispatch on the lower-cased
path happens before any file access; an unrecognized suffix raises
`ValueError("Unsupported file format")`.  The surrounding `try/except`
re-raises everything as `Exception("Error extracting text: " + str(e))`.
On success the source returns `_parse_resume_content(text)`, a total pure
transformation of the text (its `_extract_experience` piece is modelled
separately below); the model returns the extracted text itself. -/
def extract_text (env : ExtractorEnv) (file_path : String) : Except String String :=
  match
    (if pyEndsWith (pyLower file_path) ".pdf" then extract_from_pdf env
     else if pyEndsWith (pyLower file_path) ".docx" || pyEndsWith (pyLower file_path) ".doc"
       then extract_from_docx env
     else .error "Unsupported file format") with
  | .ok t => .ok t
  | .error e => .error ("Error extracting text: " ++ e)

/-! ## Claim C8 -/

/-- C8 (confirmed).  For a path whose lower-cased name ends in none of
`.pdf`, `.docx`, `.doc`, extraction fails with the unsupported-format
error without consulting the file system (the result is the same under
every file-system oracle); and that error message differs from the one
produced for any corrupt/unreadable PDF or DOCX, so the two failure kinds
are distinguishable.  (Both are raised as the same Python `Exception`
class — only the message distinguishes them.) -/
theorem claim_C8 :
    (∀ (env env2 : ExtractorEnv) (file_path : String),
      pyEndsWith (pyLower file_path) ".pdf" = false →
      pyEndsWith (pyLower file_path) ".docx" = false →
      pyEndsWith (pyLower file_path) ".doc" = false →
      extract_text env file_path = .error "Error extracting text: Unsupported file format"
      ∧ extract_text env file_path = extract_text env2 file_path)
    ∧ (∀ (env : ExtractorEnv) (file_path : String) (msg : String),
        env.pdfRead = .error msg →
        pyEndsWith (pyLower file_path) ".pdf" = true →
        extract_text env file_path =
          .error ("Error extracting text: " ++ ("Error reading PDF: " ++ msg)))
    ∧ (∀ msg : String,
        "Error extracting text: " ++ ("Error reading PDF: " ++ msg) ≠
          "Error extracting text: Unsupported file format")
    ∧ (∀ msg : String,
        "Error extracting text: " ++ ("Error reading DOCX: " ++ msg) ≠
          "Error extracting text: Unsupported file format") := by
  refine ⟨?_, ?_, ?_, ?_⟩
  · intro env env2 file_path h1 h2 h3
    constructor <;> simp [extract_text, h1, h2, h3]
  · intro env file_path msg hread h1
    simp [extract_text, h1, extract_from_pdf, hread]
  · intro msg h
    have hd := congrArg String.data h
    rw [String.data_append, String.data_append, ← List.append_assoc] at hd
    have ht := congrArg (List.take 42) hd
    rw [List.take_append_of_le_length (by decide)] at ht
    exact absurd ht (by decide)
  · intro msg h
    have hd := congrArg String.data h
    rw [String.data_append, String.data_append, ← List.append_assoc] at hd
    have ht := congrArg (List.take 43) hd
    rw [List.take_append_of_le_length (by decide)] at ht
    exact absurd ht (by decide)

/-- A file-system oracle whose PDF read fails. -/
def envPdfFail : ExtractorEnv := { pdfRead := .error "bad stream" }

theorem claim_C8_witness :
    (pyEndsWith (pyLower "resume.txt") ".pdf" = false
      ∧ pyEndsWith (pyLower "resume.txt") ".docx" = false
      ∧ pyEndsWith (pyLower "resume.txt") ".doc" = false
      ∧ extract_text envPdfFail "resume.txt" =
          .error "Error extracting text: Unsupported file format"
      ∧ extract_text envPdfFail "resume.txt" = extract_text {} "resume.txt")
    ∧ (envPdfFail.pdfRead = .error "bad stream"
      ∧ pyEndsWith (pyLower "cv.PDF") ".pdf" = true
      ∧ extract_text envPdfFail "cv.PDF" =
          .error ("Error extracting text: " ++ ("Error reading PDF: " ++ "bad stream"))) :=
  ⟨⟨by decide, by decide, by decide,
    (claim_C8.1 envPdfFail {} "resume.txt" (by decide) (by decide) (by decide)).1,
    (claim_C8.1 envPdfFail {} "resume.txt" (by decide) (by decide) (by decide)).2⟩,
   ⟨rfl, by decide,
    claim_C8.2.1 envPdfFail "cv.PDF" "bad stream" rfl (by decide)⟩⟩

/-! ## Experience extraction `ResumeParser._extract_experience`

The six experience regexes are embedded as explicit patterns over an
executable matcher.  In each pattern every `*`/`+` quantifier ranges over
a character class that is disjoint from whatever can follow it, so the
greedy maximal-munch strategy below coincides with Python's backtracking
semantics on these patterns; optionals and alternatives are tried
greedily/left-to-right exactly as `re` does, and `findall` scans
positions left to right, resuming after each non-overlapping match. -/

/-- Python `\s` on the ASCII range. -/
def isSpaceChar (c : Char) : Bool :=
  c == ' ' || c == '\t' || c == '\n' || c == '\r' || c == '\x0b' || c == '\x0c'

/-- The character classes occurring in the six experience regexes:
`\d`, `\s` and `[:\s]`. -/
inductive CClass where
  | digit
  | space
  | colonSpace
  deriving DecidableEq

def CClass.mem : CClass → Char → Bool
  | .digit, c => c.isDigit
  | .space, c => isSpaceChar c
  | .colonSpace, c => c == ':' || isSpaceChar c

/-- One syntactic piece of a pattern: a literal, a greedy class star, the
capturing group `(\d+)`, a greedy optional group, or an alternation. -/
inductive Item where
  | lit : List Char → Item
  | star : CClass → Item
  | capNum : Item
  | opt : List Item → Item
  | alts : List (List Item) → Item

def lit (s : String) : Item := Item.lit s.data

/-- Value of a digit string (`int(match)` — never raises on `\d+`). -/
def digitsVal (cs : List Char) : Nat :=
  cs.foldl (fun n c => 10 * n + (c.toNat - 48)) 0

/-- Split off the maximal run of class characters. -/
def munch (c : CClass) : List Char → List Char × List Char
  | [] => ([], [])
  | x :: xs =>
    if CClass.mem c x then ((x :: (munch c xs).1), (munch c xs).2)
    else ([], x :: xs)

/-- Match a pattern against a prefix of `input`, returning the capture
and the unconsumed rest.  `fuel` only bounds the recursion depth: one
unit is spent per item processed along a branch, so any fuel beyond the
flattened pattern size is enough (the patterns below are < 20 items). -/
def matchItems : Nat → List Item → List Char → Option Nat → Option (Option Nat × List Char)
  | 0, _, _, _ => none
  | _ + 1, [], input, cap => some (cap, input)
  | fuel + 1, Item.lit s :: rest, input, cap =>
    if s.isPrefixOf input then matchItems fuel rest (input.drop s.length) cap else none
  | fuel + 1, Item.star c :: rest, input, cap =>
    matchItems fuel rest (munch c input).2 cap
  | fuel + 1, Item.capNum :: rest, input, _cap =>
    if (munch CClass.digit input).1.isEmpty then none
    else matchItems fuel rest (munch CClass.digit input).2
      (some (digitsVal (munch CClass.digit input).1))
  | fuel + 1, Item.opt ps :: rest, input, cap =>
    match matchItems fuel (ps ++ rest) input cap with
    | some r => some r
    | none => matchItems fuel rest input cap
  | _ + 1, Item.alts [] :: _, _, _ => none
  | fuel + 1, Item.alts (b :: bs) :: rest, input, cap =>
    match matchItems fuel (b ++ rest) input cap with
    | some r => some r
    | none => matchItems fuel (Item.alts bs :: rest) input cap

/-- `re.findall` over a pattern with one capturing group: scan left to
right, resume after each match (advancing one character after a
zero-width match, which these patterns cannot produce). -/
def findallGo : Nat → List Item → List Char → List Nat
  | 0, _, _ => []
  | fuel + 1, pat, input =>
    match matchItems 100 pat input none with
    | some (cap, rem) =>
      if rem.length < input.length then
        (match cap with | some v => [v] | none => []) ++ findallGo fuel pat rem
      else
        (match cap with | some v => [v] | none => []) ++
          (match input with
           | [] => []
           | _ :: tl => findallGo fuel pat tl)
    | none =>
      match input with
      | [] => []
      | _ :: tl => findallGo fuel pat tl

def findall (pat : List Item) (s : String) : List Nat :=
  findallGo (s.length + 1) pat s.data

/-- Pattern `(\d+)\+?\s*years?\s*(?:of\s*)?experience`. -/
def P1 : List Item :=
  [Item.capNum, Item.opt [lit "+"], Item.star .space, lit "year", Item.opt [lit "s"],
   Item.star .space, Item.opt [lit "of", Item.star .space], lit "experience"]

/-- Pattern `(\d+)\+?\s*yrs?\s*(?:of\s*)?experience`. -/
def P2 : List Item :=
  [Item.capNum, Item.opt [lit "+"], Item.star .space, lit "yr", Item.opt [lit "s"],
   Item.star .space, Item.opt [lit "of", Item.star .space], lit "experience"]

/-- Pattern `experience[:\s]*(\d+)\+?\s*years?`. -/
def P3 : List Item :=
  [lit "experience", Item.star .colonSpace, Item.capNum, Item.opt [lit "+"],
   Item.star .space, lit "year", Item.opt [lit "s"]]

/-- Pattern `(\d+)\+?\s*years?\s*in\s*(?:software|programming|development)`. -/
def P4 : List Item :=
  [Item.capNum, Item.opt [lit "+"], Item.star .space, lit "year", Item.opt [lit "s"],
   Item.star .space, lit "in", Item.star .space,
   Item.alts [[lit "software"], [lit "programming"], [lit "development"]]]

/-- Pattern `over\s*(\d+)\s*years?`. -/
def P5 : List Item :=
  [lit "over", Item.star .space, Item.capNum, Item.star .space, lit "year",
   Item.opt [lit "s"]]

/-- Pattern `more\s*than\s*(\d+)\s*years?`. -/
def P6 : List Item :=
  [lit "more", Item.star .space, lit "than", Item.star .space, Item.capNum,
   Item.star .space, lit "year", Item.opt [lit "s"]]

def experience_patterns : List (List Item) := [P1, P2, P3, P4, P5, P6]

/-- `ResumeParser._extract_experience`: collect every captured integer of
every match of all six patterns; `max(years) if years else 0`. -/
def extract_experience (text_lower : String) : Nat :=
  if (experience_patterns.flatMap (fun p => findall p text_lower)).isEmpty then 0
  else (experience_patterns.flatMap (fun p => findall p text_lower)).foldl max 0

/-! ## Claim C7 -/

/-- C7 (confirmed).  Experience-years extraction returns the maximum of
all integers captured across all matches of all six patterns, 0 when no
pattern matches anywhere; in particular `"5 years of experience"` gives 5
and `"3 years of experience, over 10 years"` gives 10 (the maximum over
captures 3 and 10). -/
theorem claim_C7 :
    (∀ text : String,
      extract_experience text =
        (experience_patterns.flatMap (fun p => findall p text)).foldl max 0)
    ∧ extract_experience "5 years of experience" = 5
    ∧ extract_experience "3 years of experience, over 10 years" = 10 := by
  refine ⟨?_, by decide, by decide⟩
  intro text
  rw [extract_experience]
  by_cases h : (experience_patterns.flatMap (fun p => findall p text)).isEmpty
  · rw [if_pos h]
    rw [List.isEmpty_iff] at h
    rw [h]
    rfl
  · rw [if_neg h]
